import Mathlib

/-!
Verification of the named-logger registry core of wxlbd/awesome-log.

The Go source (src/logger.go, src/config.go, src/internal/level.go) is
shallowly embedded below.  Pure helpers (level resolution, encoder
selection, file-path derivation) become Lean functions; the process-wide
registry (`loggerMap`, `globalLogger`) becomes an explicit state record
threaded through `NewLogger`, `GetLogger` and `Init`; filesystem effects
(`os.MkdirAll`, `os.OpenFile`) become an environment of boolean oracles,
so a failing filesystem is a legal environment.  Pointer identity of Go
`*Logger` values is modelled by tagging each constructed instance with a
fresh allocation counter.
-/

namespace AwesomeLog

/-- FileConfig mirrors the Go struct `FileConfig` in config.go. -/
structure FileConfig where
  Filename : String
  MaxSize : Int
  MaxAge : Int
  MaxBackups : Int
  Compress : Bool
  Format : String
deriving DecidableEq, Repr

/-- Config mirrors the Go struct `Config` in config.go (the Go field
`FileConfig` is spelt `fileConfig` here because in Lean a field may not
shadow the name of its own type). -/
structure Config where
  Level : String
  Format : String
  WriteToFile : Bool
  EnableColor : Bool
  fileConfig : FileConfig
  RecordCaller : Bool
  TimeFormat : String
deriving DecidableEq, Repr

/-- DefaultConfig mirrors `DefaultConfig` in config.go. -/
def DefaultConfig : Config :=
  { Level := "info"
    Format := "console"
    WriteToFile := false
    EnableColor := true
    fileConfig :=
      { Filename := "logs/app.log"
        MaxSize := 100
        MaxAge := 7
        MaxBackups := 10
        Compress := true
        Format := "json" }
    RecordCaller := true
    TimeFormat := "2006-01-02 15:04:05.000" }

/-- Opt mirrors the Go type `Option func(*Config)` (a pure config
mutator; named `Opt` because `Option` is taken in Lean). -/
abbrev Opt := Config → Config

/-- WithLevel mirrors `WithLevel` in config.go. -/
def WithLevel (level : String) : Opt := fun c => { c with Level := level }

/-- WithFormat mirrors `WithFormat` in config.go. -/
def WithFormat (format : String) : Opt := fun c => { c with Format := format }

/-- WithTimeFormat mirrors `WithTimeFormat` in config.go. -/
def WithTimeFormat (format : String) : Opt := fun c => { c with TimeFormat := format }

/-- WithColor mirrors `WithColor` in config.go. -/
def WithColor (enable : Bool) : Opt := fun c => { c with EnableColor := enable }

/-- WithCaller mirrors `WithCaller` in config.go. -/
def WithCaller (enable : Bool) : Opt := fun c => { c with RecordCaller := enable }

/-- WithFileRotation mirrors `WithFileRotation` in config.go. -/
def WithFileRotation (filename : String) (maxSize maxAge maxBackups : Int)
    (compress : Bool) : Opt := fun c =>
  { c with
    WriteToFile := true
    fileConfig :=
      { Filename := filename
        MaxSize := maxSize
        MaxAge := maxAge
        MaxBackups := maxBackups
        Compress := compress
        Format := "json" } }

/-- WithFileFormat mirrors `WithFileFormat` in config.go. -/
def WithFileFormat (format : String) : Opt := fun c =>
  { c with fileConfig := { c.fileConfig with Format := format } }

/-- WithFullConfig mirrors `WithFullConfig` in config.go: the Go body
`*c = *config` replaces the whole config by a value copy of `config`. -/
def WithFullConfig (config : Config) : Opt := fun _ => config

/-- applyOpts mirrors the option-application loop
`for _, opt := range opts { opt(config) }` of logger.go. -/
def applyOpts (opts : List Opt) (config : Config) : Config :=
  opts.foldl (fun c opt => opt c) config

/-- DebugLevel mirrors `zapcore.DebugLevel` (= -1). -/
def DebugLevel : Int := -1

/-- InfoLevel mirrors `zapcore.InfoLevel` (= 0). -/
def InfoLevel : Int := 0

/-- WarnLevel mirrors `zapcore.WarnLevel` (= 1). -/
def WarnLevel : Int := 1

/-- ErrorLevel mirrors `zapcore.ErrorLevel` (= 2). -/
def ErrorLevel : Int := 2

/-- FatalLevel mirrors `zapcore.FatalLevel` (= 5). -/
def FatalLevel : Int := 5

/-- levelMap mirrors the map `levelMap` of logger.go (lines 30-36) as a
lookup function. -/
def levelMap (s : String) : Option Int :=
  if s = "debug" then some DebugLevel
  else if s = "info" then some InfoLevel
  else if s = "warn" then some WarnLevel
  else if s = "error" then some ErrorLevel
  else if s = "fatal" then some FatalLevel
  else none

/-- getZapLevel mirrors `getZapLevel` of logger.go (lines 256-261). -/
def getZapLevel (level : String) : Int :=
  match levelMap level with
  | some zapLevel => zapLevel
  | none => InfoLevel

namespace Internal

/-- LevelMap mirrors the map `LevelMap` of internal/level.go (lines
11-17), textually identical to `levelMap` of logger.go. -/
def LevelMap (s : String) : Option Int :=
  if s = "debug" then some DebugLevel
  else if s = "info" then some InfoLevel
  else if s = "warn" then some WarnLevel
  else if s = "error" then some ErrorLevel
  else if s = "fatal" then some FatalLevel
  else none

/-- GetZapLevel mirrors `GetZapLevel` of internal/level.go (lines 29-34). -/
def GetZapLevel (level : String) : Int :=
  match LevelMap level with
  | some zapLevel => zapLevel
  | none => InfoLevel

end Internal

/-- Encoder abstracts the two zapcore encoders that `getEncoder` can
return: the structured JSON encoder and the human-readable console
encoder (the encoder-config argument of the Go function does not affect
which of the two is chosen). -/
inductive Encoder where
  | json : Encoder
  | console : Encoder
deriving DecidableEq, Repr

/-- getEncoder mirrors `getEncoder` of logger.go (lines 248-253),
restricted to the format-driven choice of encoder kind. -/
def getEncoder (format : String) : Encoder :=
  if format = "json" then Encoder.json else Encoder.console

/-- extScan mirrors the loop of Go `filepath.Ext`: walking the path from
its end, it stops at the first path separator (no extension) or at the
first dot (the extension starts there).  The first argument is the path
reversed; the accumulator carries the characters already walked past, so
on hitting a dot the result `dot :: acc` is exactly Go `path[i:]`. -/
def extScan : List Char → List Char → List Char
  | [], _ => []
  | c :: rest, acc =>
    if c = '/' then []
    else if c = '.' then c :: acc
    else extScan rest (c :: acc)

/-- filepathExt mirrors Go `filepath.Ext` (Unix separators): the suffix
of `path` beginning at the final dot in the final slash-separated
element, empty when that element has no dot. -/
def filepathExt (path : String) : String :=
  String.mk (extScan path.data.reverse [])

/-- dirScan drops, from a reversed character list, everything up to and
including the first separator: applied to `path.data.reverse` it yields
the reversed directory part of `path`. -/
def dirScan : List Char → List Char
  | [] => []
  | c :: rest => if c = '/' then rest else dirScan rest

/-- filepathDir mirrors Go `filepath.Dir` on Unix for already-clean
paths: everything before the final separator, `"."` when there is no
separator, `"/"` when the directory part is the root.  (Go additionally
normalises the result with `Clean`; no claim depends on that
normalisation, and the filesystem oracle below is quantified over all
behaviours of this argument.) -/
def filepathDir (path : String) : String :=
  match dirScan path.data.reverse with
  | [] => if path.data.contains '/' then "/" else "."
  | ds => String.mk ds.reverse

/-- finalComponent is the final slash-separated element of a path (the
characters after the last separator), used to state the extensionless
edge case of path derivation. -/
def finalComponent (path : String) : List Char :=
  (path.data.reverse.takeWhile (fun c => c != '/')).reverse

/-- deriveFilename mirrors lines 146-151 of logger.go: for a non-empty
logger name the name is spliced in front of the extension of the
configured base filename (`filename[:len(filename)-len(ext)] + "." +
name + ext`); the empty name leaves the base filename unmodified. -/
def deriveFilename (filename name : String) : String :=
  if name = "" then filename
  else
    let ext := filepathExt filename
    String.mk (filename.data.take (filename.data.length - ext.data.length))
      ++ "." ++ name ++ ext

/-- Logger mirrors the Go struct `Logger` of logger.go.  The `zap` and
`sugar` fields wrap the third-party engine and carry no registry-relevant
state beyond the name the logger was built with; Go pointer identity of
`*Logger` is modelled by the allocation tag `id`. -/
structure Logger where
  id : Nat
  name : String
  config : Config
deriving DecidableEq, Repr

/-- Env is the filesystem oracle: `mkdirOk dir` models whether
`os.MkdirAll(dir, 0755)` succeeds and `openOk file` whether
`os.OpenFile(file, O_CREATE|O_WRONLY|O_APPEND, 0644)` succeeds. -/
structure Env where
  mkdirOk : String → Bool
  openOk : String → Bool

/-- envOk is the environment in which every filesystem call succeeds. -/
def envOk : Env := { mkdirOk := fun _ => true, openOk := fun _ => true }

/-- RegState is the process-wide mutable state of logger.go: the map
`loggerMap`, the pointer `globalLogger`, and an allocation counter used
to model pointer identity of constructed instances. -/
structure RegState where
  loggerMap : List (String × Logger)
  globalLogger : Option Logger
  nextId : Nat
deriving DecidableEq, Repr

/-- initialState models process start: empty `loggerMap`, nil
`globalLogger`. -/
def initialState : RegState :=
  { loggerMap := [], globalLogger := none, nextId := 0 }

/-- mapLookup models Go map indexing `loggerMap[name]` on the
association-list representation of the registry. -/
def mapLookup : List (String × Logger) → String → Option Logger
  | [], _ => none
  | (k, v) :: rest, name => if k = name then some v else mapLookup rest name

/-- registerNew models the commit step of `NewLogger` (lines 95-97 and
202-208 of logger.go): allocate a fresh instance for `name` holding
`config`, store it in `loggerMap`, and return it.  The middle component
of the result records the construction event. -/
def registerNew (name : String) (config : Config) (s : RegState) :
    RegState × List String × Option Logger :=
  let logger : Logger := { id := s.nextId, name := name, config := config }
  ({ loggerMap := (name, logger) :: s.loggerMap
     globalLogger := s.globalLogger
     nextId := s.nextId + 1 },
   [name], some logger)

/-- NewLogger mirrors `NewLogger` of logger.go (lines 76-209) under the
registry lock: return the registered instance if `name` is present;
otherwise build the config from the defaults and the options, and if
file output is requested derive the per-name path and consult the
filesystem oracle — on failure return `none` (Go `nil`) with the state
unchanged, on success commit via `registerNew`.  The middle component
lists the names constructed during the call ([] or [name]). -/
def NewLogger (env : Env) (name : String) (opts : List Opt) (s : RegState) :
    RegState × List String × Option Logger :=
  match mapLookup s.loggerMap name with
  | some logger => (s, [], some logger)
  | none =>
    let config := applyOpts opts DefaultConfig
    if config.WriteToFile then
      let filename := deriveFilename config.fileConfig.Filename name
      if env.mkdirOk (filepathDir filename) then
        if env.openOk filename then registerNew name config s
        else (s, [], none)
      else (s, [], none)
    else registerNew name config s

/-- globalOpts mirrors lines 220-224 of logger.go: the option list that
`GetLogger` passes on to `NewLogger` — the full config of the global
logger when one is set, nothing otherwise. -/
def globalOpts (s : RegState) : List Opt :=
  match s.globalLogger with
  | some g => [WithFullConfig g.config]
  | none => []

/-- GetLogger mirrors `GetLogger` of logger.go (lines 212-226): return
the registered instance when present, otherwise fall through to
`NewLogger` with the options derived from the global logger. -/
def GetLogger (env : Env) (name : String) (s : RegState) :
    RegState × List String × Option Logger :=
  match mapLookup s.loggerMap name with
  | some logger => (s, [], some logger)
  | none => NewLogger env name (globalOpts s) s

/-- Init mirrors `Init` of logger.go (lines 229-245): build the config
from the defaults and the options, call `NewLogger` for the anonymous
name with that full config, and on success store the result as the
global logger.  The boolean models the Go `error` result (`true` = nil
error). -/
def Init (env : Env) (opts : List Opt) (s : RegState) :
    RegState × List String × Bool :=
  let config := applyOpts opts DefaultConfig
  match NewLogger env "" [WithFullConfig config] s with
  | (s1, evs, none) => (s1, evs, false)
  | (s1, evs, some logger) =>
    ({ s1 with globalLogger := some logger }, evs, true)

/-- Op enumerates the registry operations a client can perform. -/
inductive Op where
  | newLogger (name : String) (opts : List Opt) : Op
  | getLogger (name : String) : Op
  | init (opts : List Opt) : Op

/-- stepOp runs one registry operation, keeping the state and the list
of construction events. -/
def stepOp (env : Env) (op : Op) (s : RegState) : RegState × List String :=
  match op with
  | Op.newLogger name opts => let r := NewLogger env name opts s; (r.1, r.2.1)
  | Op.getLogger name => let r := GetLogger env name s; (r.1, r.2.1)
  | Op.init opts => let r := Init env opts s; (r.1, r.2.1)

/-- runOps runs a sequence of registry operations, accumulating the
construction events in order. -/
def runOps (env : Env) : List Op → RegState → RegState × List String
  | [], s => (s, [])
  | op :: rest, s =>
    let r1 := stepOp env op s
    let r2 := runOps env rest r1.1
    (r2.1, r1.2 ++ r2.2)

/-! Basic lemmas about the registry operations. -/

theorem registerNew_lookup_self (name : String) (config : Config) (s : RegState) :
    mapLookup ((registerNew name config s).1).loggerMap name =
      some { id := s.nextId, name := name, config := config } := by
  simp [registerNew, mapLookup]

theorem registerNew_lookup_other (name : String) (config : Config) (s : RegState)
    (n : String) (h : name ≠ n) :
    mapLookup ((registerNew name config s).1).loggerMap n = mapLookup s.loggerMap n := by
  simp [registerNew, mapLookup, h]

theorem NewLogger_found (env : Env) (name : String) (opts : List Opt) (s : RegState)
    (l : Logger) (h : mapLookup s.loggerMap name = some l) :
    NewLogger env name opts s = (s, [], some l) := by
  simp [NewLogger, h]

theorem NewLogger_absent (env : Env) (name : String) (opts : List Opt) (s : RegState)
    (h : mapLookup s.loggerMap name = none) :
    NewLogger env name opts s = (s, [], none) ∨
    NewLogger env name opts s = registerNew name (applyOpts opts DefaultConfig) s := by
  by_cases hw : (applyOpts opts DefaultConfig).WriteToFile = true
  · by_cases hm : env.mkdirOk
      (filepathDir (deriveFilename (applyOpts opts DefaultConfig).fileConfig.Filename name)) = true
    · by_cases ho : env.openOk
        (deriveFilename (applyOpts opts DefaultConfig).fileConfig.Filename name) = true
      · right; simp [NewLogger, h, hw, hm, ho]
      · left; simp [NewLogger, h, hw, hm, ho]
    · left; simp [NewLogger, h, hw, hm]
  · right; simp [NewLogger, h, hw]

theorem NewLogger_envOk_absent (name : String) (opts : List Opt) (s : RegState)
    (h : mapLookup s.loggerMap name = none) :
    NewLogger envOk name opts s = registerNew name (applyOpts opts DefaultConfig) s := by
  by_cases hw : (applyOpts opts DefaultConfig).WriteToFile = true <;>
    simp [NewLogger, h, hw, envOk]

theorem NewLogger_success_of_absent (env : Env) (name : String) (opts : List Opt)
    (s : RegState) (l : Logger) (hfind : mapLookup s.loggerMap name = none)
    (h : (NewLogger env name opts s).2.2 = some l) :
    NewLogger env name opts s = registerNew name (applyOpts opts DefaultConfig) s := by
  rcases NewLogger_absent env name opts s hfind with heq | heq
  · rw [heq] at h; cases h
  · exact heq

theorem NewLogger_result_registered (env : Env) (name : String) (opts : List Opt)
    (s : RegState) (l : Logger) (h : (NewLogger env name opts s).2.2 = some l) :
    mapLookup ((NewLogger env name opts s).1).loggerMap name = some l := by
  cases hfind : mapLookup s.loggerMap name with
  | some l0 =>
    rw [NewLogger_found env name opts s l0 hfind] at h ⊢
    simp only [Option.some.injEq] at h
    simpa [h] using hfind
  | none =>
    have heq := NewLogger_success_of_absent env name opts s l hfind h
    rw [heq] at h
    rw [heq, registerNew_lookup_self]
    simpa [registerNew] using h

theorem NewLogger_preserves (env : Env) (name : String) (opts : List Opt) (s : RegState)
    (n : String) (l : Logger) (h : mapLookup s.loggerMap n = some l) :
    mapLookup ((NewLogger env name opts s).1).loggerMap n = some l ∧
    n ∉ (NewLogger env name opts s).2.1 := by
  cases hfind : mapLookup s.loggerMap name with
  | some l0 => rw [NewLogger_found env name opts s l0 hfind]; exact ⟨h, by simp⟩
  | none =>
    have hne : name ≠ n := by
      intro he; rw [he, h] at hfind; cases hfind
    rcases NewLogger_absent env name opts s hfind with heq | heq <;> rw [heq]
    · exact ⟨h, by simp⟩
    · refine ⟨?_, ?_⟩
      · rw [registerNew_lookup_other name _ s n hne]; exact h
      · simpa [registerNew] using fun he => hne he.symm

theorem NewLogger_mem_events (env : Env) (name : String) (opts : List Opt) (s : RegState)
    (n : String) (h : n ∈ (NewLogger env name opts s).2.1) :
    ∃ l, mapLookup ((NewLogger env name opts s).1).loggerMap n = some l := by
  cases hfind : mapLookup s.loggerMap name with
  | some l0 => rw [NewLogger_found env name opts s l0 hfind] at h; simp at h
  | none =>
    rcases NewLogger_absent env name opts s hfind with heq | heq <;> rw [heq] at h ⊢
    · simp at h
    · have hn : n = name := by simpa [registerNew] using h
      subst hn
      exact ⟨_, registerNew_lookup_self n _ s⟩

theorem NewLogger_events_shape (env : Env) (name : String) (opts : List Opt)
    (s : RegState) :
    (NewLogger env name opts s).2.1 = [] ∨ (NewLogger env name opts s).2.1 = [name] := by
  cases hfind : mapLookup s.loggerMap name with
  | some l0 => rw [NewLogger_found env name opts s l0 hfind]; exact Or.inl rfl
  | none =>
    rcases NewLogger_absent env name opts s hfind with heq | heq <;> rw [heq]
    · exact Or.inl rfl
    · exact Or.inr rfl

theorem GetLogger_found (env : Env) (name : String) (s : RegState) (l : Logger)
    (h : mapLookup s.loggerMap name = some l) :
    GetLogger env name s = (s, [], some l) := by
  simp [GetLogger, h]

theorem GetLogger_absent (env : Env) (name : String) (s : RegState)
    (h : mapLookup s.loggerMap name = none) :
    GetLogger env name s = NewLogger env name (globalOpts s) s := by
  simp [GetLogger, h]

theorem Init_parts (env : Env) (opts : List Opt) (s : RegState) :
    (Init env opts s).1.loggerMap =
      ((NewLogger env "" [WithFullConfig (applyOpts opts DefaultConfig)] s).1).loggerMap ∧
    (Init env opts s).2.1 =
      (NewLogger env "" [WithFullConfig (applyOpts opts DefaultConfig)] s).2.1 := by
  simp only [Init]
  rcases hN : NewLogger env "" [WithFullConfig (applyOpts opts DefaultConfig)] s with
    ⟨s1, evs, res⟩
  cases res <;> simp

theorem stepOp_preserves (env : Env) (op : Op) (s : RegState) (n : String) (l : Logger)
    (h : mapLookup s.loggerMap n = some l) :
    mapLookup ((stepOp env op s).1).loggerMap n = some l ∧ n ∉ (stepOp env op s).2 := by
  cases op with
  | newLogger m opts => simpa [stepOp] using NewLogger_preserves env m opts s n l h
  | getLogger m =>
    cases hfind : mapLookup s.loggerMap m with
    | some l0 =>
      rw [show stepOp env (Op.getLogger m) s = (s, []) from by
        simp [stepOp, GetLogger_found env m s l0 hfind]]
      exact ⟨h, by simp⟩
    | none =>
      have := NewLogger_preserves env m (globalOpts s) s n l h
      simpa [stepOp, GetLogger_absent env m s hfind] using this
  | init opts =>
    obtain ⟨h1, h2⟩ := Init_parts env opts s
    have := NewLogger_preserves env "" [WithFullConfig (applyOpts opts DefaultConfig)] s n l h
    rw [show (stepOp env (Op.init opts) s).1 = (Init env opts s).1 from rfl,
      show (stepOp env (Op.init opts) s).2 = (Init env opts s).2.1 from rfl, h1, h2]
    exact this

theorem stepOp_mem_events (env : Env) (op : Op) (s : RegState) (n : String)
    (h : n ∈ (stepOp env op s).2) :
    ∃ l, mapLookup ((stepOp env op s).1).loggerMap n = some l := by
  cases op with
  | newLogger m opts => simpa [stepOp] using NewLogger_mem_events env m opts s n (by simpa [stepOp] using h)
  | getLogger m =>
    cases hfind : mapLookup s.loggerMap m with
    | some l0 =>
      rw [show stepOp env (Op.getLogger m) s = (s, []) from by
        simp [stepOp, GetLogger_found env m s l0 hfind]] at h
      simp at h
    | none =>
      rw [show stepOp env (Op.getLogger m) s =
          ((NewLogger env m (globalOpts s) s).1, (NewLogger env m (globalOpts s) s).2.1) from by
        simp [stepOp, GetLogger_absent env m s hfind]] at h ⊢
      exact NewLogger_mem_events env m (globalOpts s) s n h
  | init opts =>
    obtain ⟨h1, h2⟩ := Init_parts env opts s
    rw [show (stepOp env (Op.init opts) s).2 = (Init env opts s).2.1 from rfl, h2] at h
    rw [show (stepOp env (Op.init opts) s).1 = (Init env opts s).1 from rfl, h1]
    exact NewLogger_mem_events env "" [WithFullConfig (applyOpts opts DefaultConfig)] s n h

theorem stepOp_events_shape (env : Env) (op : Op) (s : RegState) :
    (stepOp env op s).2 = [] ∨ ∃ m, (stepOp env op s).2 = [m] := by
  cases op with
  | newLogger m opts =>
    rcases NewLogger_events_shape env m opts s with hsh | hsh
    · exact Or.inl (by simpa [stepOp] using hsh)
    · exact Or.inr ⟨m, by simpa [stepOp] using hsh⟩
  | getLogger m =>
    cases hfind : mapLookup s.loggerMap m with
    | some l0 =>
      exact Or.inl (by simp [stepOp, GetLogger_found env m s l0 hfind])
    | none =>
      rcases NewLogger_events_shape env m (globalOpts s) s with hsh | hsh
      · exact Or.inl (by simpa [stepOp, GetLogger_absent env m s hfind] using hsh)
      · exact Or.inr ⟨m, by simpa [stepOp, GetLogger_absent env m s hfind] using hsh⟩
  | init opts =>
    obtain ⟨h1, h2⟩ := Init_parts env opts s
    rw [show (stepOp env (Op.init opts) s).2 = (Init env opts s).2.1 from rfl, h2]
    rcases NewLogger_events_shape env "" [WithFullConfig (applyOpts opts DefaultConfig)] s with
      hsh | hsh
    · exact Or.inl hsh
    · exact Or.inr ⟨"", hsh⟩

theorem runOps_preserves (env : Env) (ops : List Op) :
    ∀ s n l, mapLookup s.loggerMap n = some l →
      mapLookup ((runOps env ops s).1).loggerMap n = some l ∧
      n ∉ (runOps env ops s).2 := by
  induction ops with
  | nil => intro s n l h; exact ⟨h, by simp [runOps]⟩
  | cons op rest ih =>
    intro s n l h
    obtain ⟨h1, h2⟩ := stepOp_preserves env op s n l h
    obtain ⟨h3, h4⟩ := ih (stepOp env op s).1 n l h1
    refine ⟨by simpa [runOps] using h3, ?_⟩
    simp only [runOps, List.mem_append]
    exact fun hmem => hmem.elim h2 h4

theorem runOps_count_le_one (env : Env) (n : String) :
    ∀ ops s, ((runOps env ops s).2.count n) ≤ 1 := by
  intro ops
  induction ops with
  | nil => intro s; simp [runOps]
  | cons op rest ih =>
    intro s
    simp only [runOps, List.count_append]
    by_cases hmem : n ∈ (stepOp env op s).2
    · obtain ⟨l, hl⟩ := stepOp_mem_events env op s n hmem
      have hzero : (runOps env rest (stepOp env op s).1).2.count n = 0 :=
        List.count_eq_zero.mpr (runOps_preserves env rest (stepOp env op s).1 n l hl).2
      have hone : (stepOp env op s).2.count n ≤ 1 := by
        rcases stepOp_events_shape env op s with hsh | ⟨m, hsh⟩ <;> rw [hsh]
        · simp
        · rw [List.count_singleton']; split <;> simp
      omega
    · have hz : (stepOp env op s).2.count n = 0 := List.count_eq_zero.mpr hmem
      have := ih (stepOp env op s).1
      omega

/-! Lemmas about the extension scanner and path derivation. -/

theorem string_data_eq (a b : String) (h : a.data = b.data) : a = b := by
  cases a with | mk da =>
  cases b with | mk db =>
  have h' : da = db := h
  rw [h']

theorem string_append_data (a b : String) : (a ++ b).data = a.data ++ b.data := by
  cases a; cases b; rfl

theorem string_append_empty (s : String) : s ++ "" = s := by
  apply string_data_eq
  rw [string_append_data]
  simp

theorem extScan_suffix (l : List Char) :
    ∀ acc, extScan l acc = [] ∨ ∃ stem, stem ++ extScan l acc = l.reverse ++ acc := by
  induction l with
  | nil => intro _; exact Or.inl rfl
  | cons c rest ih =>
    intro acc
    by_cases hc : c = '/'
    · exact Or.inl (by simp [extScan, hc])
    · by_cases hd : c = '.'
      · refine Or.inr ⟨rest.reverse, ?_⟩
        simp [extScan, hc, hd]
      · have hstep : extScan (c :: rest) acc = extScan rest (c :: acc) := by
          simp [extScan, hc, hd]
        rcases ih (c :: acc) with h0 | ⟨stem, hs⟩
        · exact Or.inl (hstep.trans h0)
        · refine Or.inr ⟨stem, ?_⟩
          rw [hstep, hs]
          simp

theorem filepathExt_split (base : String) :
    base.data.take (base.data.length - (filepathExt base).data.length)
      ++ (filepathExt base).data = base.data := by
  rcases extScan_suffix base.data.reverse [] with h0 | ⟨stem, hs⟩
  · have hdata : (filepathExt base).data = [] := h0
    rw [hdata]
    simp
  · have hs' : stem ++ (filepathExt base).data = base.data := by
      rw [show (filepathExt base).data = extScan base.data.reverse [] from rfl]
      simpa using hs
    have hl : stem.length + (filepathExt base).data.length = base.data.length := by
      rw [← hs', List.length_append]
    have hlen : base.data.length - (filepathExt base).data.length = stem.length := by omega
    rw [hlen]
    conv_lhs => rw [← hs']
    rw [List.take_left]
    exact hs'

theorem extScan_eq_nil (l : List Char) (h : ('.' : Char) ∉ l.takeWhile (fun c => c != '/')) :
    ∀ acc, extScan l acc = [] := by
  induction l with
  | nil => intro _; rfl
  | cons c rest ih =>
    intro acc
    by_cases hc : c = '/'
    · simp [extScan, hc]
    · have htw : (c :: rest).takeWhile (fun c => c != '/') =
          c :: rest.takeWhile (fun c => c != '/') := by
        simp [List.takeWhile_cons, hc]
      rw [htw] at h
      simp only [List.mem_cons, not_or] at h
      have hd : c ≠ '.' := fun he => h.1 he.symm
      rw [show extScan (c :: rest) acc = extScan rest (c :: acc) from by
        simp [extScan, hc, hd]]
      exact ih h.2 (c :: acc)

theorem filepathExt_eq_empty (base : String) (h : ('.' : Char) ∉ finalComponent base) :
    filepathExt base = "" := by
  have h' : ('.' : Char) ∉ base.data.reverse.takeWhile (fun c => c != '/') := by
    simpa [finalComponent, List.mem_reverse] using h
  have hnil := extScan_eq_nil base.data.reverse h' []
  apply string_data_eq
  rw [show (filepathExt base).data = extScan base.data.reverse [] from rfl, hnil]

theorem deriveFilename_empty_name (base : String) : deriveFilename base "" = base := by
  simp [deriveFilename]

theorem deriveFilename_eq (base name : String) (h : name ≠ "") :
    deriveFilename base name =
      String.mk (base.data.take (base.data.length - (filepathExt base).data.length))
        ++ "." ++ name ++ filepathExt base := by
  simp [deriveFilename, h]

/-! Concrete fixtures used by the witnesses below. -/

/-- envFail is an environment in which every filesystem call fails. -/
def envFail : Env := { mkdirOk := fun _ => false, openOk := fun _ => false }

/-- loggerA is a concrete registered instance for the name "a". -/
def loggerA : Logger := { id := 0, name := "a", config := DefaultConfig }

/-- regA is a concrete registry with "a" registered. -/
def regA : RegState := { loggerMap := [("a", loggerA)], globalLogger := none, nextId := 1 }

/-- anonLogger is a concrete registered anonymous instance. -/
def anonLogger : Logger := { id := 0, name := "", config := DefaultConfig }

/-- regAnon is a concrete registry after a first successful Init. -/
def regAnon : RegState :=
  { loggerMap := [("", anonLogger)], globalLogger := some anonLogger, nextId := 1 }

/-- gConfig is a concrete non-default configuration for the global logger. -/
def gConfig : Config := { DefaultConfig with Level := "debug" }

/-- gLogger is a concrete global instance carrying `gConfig`. -/
def gLogger : Logger := { id := 0, name := "", config := gConfig }

/-- regGlobal is a concrete registry whose global logger is `gLogger`. -/
def regGlobal : RegState :=
  { loggerMap := [("", gLogger)], globalLogger := some gLogger, nextId := 1 }

/-! The claims. -/

/-- C1: for every logger name and every sequence of registry operations
(NewLogger, GetLogger, Init) under any filesystem behaviour,
construction executes at most once per name; once an entry for the name
is registered, no later operation constructs a new instance for it, the
entry is never replaced, and every later NewLogger/GetLogger on the
name returns the already-registered instance (identity modelled by the
allocation tag). -/
theorem construction_at_most_once_per_name (env : Env) (n : String) :
    (∀ ops : List Op, ∀ s : RegState, ((runOps env ops s).2.count n) ≤ 1) ∧
    (∀ s : RegState, ∀ l : Logger, mapLookup s.loggerMap n = some l →
      ∀ ops : List Op,
        mapLookup ((runOps env ops s).1).loggerMap n = some l ∧
        n ∉ (runOps env ops s).2) ∧
    (∀ s : RegState, ∀ l : Logger, mapLookup s.loggerMap n = some l →
      ∀ opts : List Opt,
        NewLogger env n opts s = (s, [], some l) ∧
        GetLogger env n s = (s, [], some l)) := by
  refine ⟨fun ops s => runOps_count_le_one env n ops s,
    fun s l h ops => runOps_preserves env ops s n l h,
    fun s l h opts => ⟨NewLogger_found env n opts s l h, GetLogger_found env n s l h⟩⟩

/-- Witness for C1: with "a" registered in `regA`, a later operation
sequence never constructs for "a" again and GetLogger returns the
registered instance. -/
theorem construction_at_most_once_per_name_witness :
    ((runOps envOk [Op.getLogger "a", Op.getLogger "b"] regA).2.count "a") ≤ 1 ∧
    mapLookup ((runOps envOk [Op.getLogger "a", Op.getLogger "b"] regA).1).loggerMap "a"
      = some loggerA ∧
    GetLogger envOk "a" regA = (regA, [], some loggerA) := by
  have h := construction_at_most_once_per_name envOk "a"
  exact ⟨h.1 [Op.getLogger "a", Op.getLogger "b"] regA,
    (h.2.1 regA loggerA rfl [Op.getLogger "a", Op.getLogger "b"]).1,
    (h.2.2 regA loggerA rfl []).2⟩

/-- C2: construction is idempotent per name: after a successful
NewLogger for a name, a second NewLogger with arbitrary other options
returns the same instance, leaves the registry unchanged, and the
stored instance (hence its configuration) is unaffected by the second
call's options — first write wins. -/
theorem newLogger_idempotent_per_name (env : Env) (name : String)
    (opts1 opts2 : List Opt) (s : RegState) (l : Logger)
    (h : (NewLogger env name opts1 s).2.2 = some l) :
    NewLogger env name opts2 (NewLogger env name opts1 s).1 =
      ((NewLogger env name opts1 s).1, [], some l) ∧
    mapLookup ((NewLogger env name opts2 (NewLogger env name opts1 s).1).1).loggerMap name
      = some l := by
  have hreg := NewLogger_result_registered env name opts1 s l h
  have h2 := NewLogger_found env name opts2 (NewLogger env name opts1 s).1 l hreg
  exact ⟨h2, by rw [h2]; exact hreg⟩

/-- Witness for C2: the second call with different options returns the
instance of the first call, whose configuration still carries the first
call's level. -/
theorem newLogger_idempotent_per_name_witness :
    NewLogger envOk "x" [WithLevel "error"]
        (NewLogger envOk "x" [WithLevel "debug"] initialState).1 =
      ((NewLogger envOk "x" [WithLevel "debug"] initialState).1, [],
        some { id := 0, name := "x", config := { DefaultConfig with Level := "debug" } }) :=
  (newLogger_idempotent_per_name envOk "x" [WithLevel "debug"] [WithLevel "error"]
    initialState { id := 0, name := "x", config := { DefaultConfig with Level := "debug" } }
    rfl).1

/-- C3: if sink construction fails, NewLogger signals failure (`none`,
Go `nil`) and the registry is unchanged: no entry is committed, the
name remains absent, and a later call for the same name under a working
filesystem runs construction again and registers. -/
theorem newLogger_failure_registry_unchanged (env : Env) (name : String)
    (opts : List Opt) (s : RegState)
    (h : (NewLogger env name opts s).2.2 = none) :
    (NewLogger env name opts s).1 = s ∧
    mapLookup s.loggerMap name = none ∧
    ∀ opts2 : List Opt,
      NewLogger envOk name opts2 (NewLogger env name opts s).1 =
        registerNew name (applyOpts opts2 DefaultConfig) s ∧
      (NewLogger envOk name opts2 (NewLogger env name opts s).1).2.1 = [name] := by
  have habs : mapLookup s.loggerMap name = none := by
    cases hfind : mapLookup s.loggerMap name with
    | some l0 => rw [NewLogger_found env name opts s l0 hfind] at h; cases h
    | none => rfl
  have hst : (NewLogger env name opts s).1 = s := by
    rcases NewLogger_absent env name opts s habs with heq | heq
    · rw [heq]
    · rw [heq] at h; simp [registerNew] at h
  refine ⟨hst, habs, fun opts2 => ?_⟩
  rw [hst]
  have hretry := NewLogger_envOk_absent name opts2 s habs
  exact ⟨hretry, by rw [hretry]; rfl⟩

/-- Witness for C3: with a filesystem that cannot create the log
directory, a file-writing NewLogger fails and leaves the registry
empty; a retry under a working filesystem constructs. -/
theorem newLogger_failure_registry_unchanged_witness :
    (NewLogger envFail "x" [WithFileRotation "logs/app.log" 100 7 10 true] initialState).1 =
      initialState ∧
    NewLogger envOk "x" []
        (NewLogger envFail "x" [WithFileRotation "logs/app.log" 100 7 10 true] initialState).1 =
      registerNew "x" (applyOpts [] DefaultConfig) initialState := by
  have h := newLogger_failure_registry_unchanged envFail "x"
    [WithFileRotation "logs/app.log" 100 7 10 true] initialState rfl
  exact ⟨h.1, (h.2.2 []).1⟩

/-- C4 counterexample: running Init twice from process start, the
second call (with a different level option) performs no construction,
returns success, and both the registry's anonymous entry and the
process default are still the instance built by the first call with
its original default configuration — the second call did not rebuild
or replace anything. -/
theorem init_twice_counterexample :
    (Init envOk [WithLevel "debug"] (Init envOk [] initialState).1).2.1 = [] ∧
    (Init envOk [WithLevel "debug"] (Init envOk [] initialState).1).2.2 = true ∧
    (Init envOk [WithLevel "debug"] (Init envOk [] initialState).1).1.globalLogger =
      some { id := 0, name := "", config := DefaultConfig } ∧
    mapLookup ((Init envOk [WithLevel "debug"] (Init envOk [] initialState).1).1).loggerMap ""
      = some { id := 0, name := "", config := DefaultConfig } ∧
    (Init envOk [WithLevel "debug"] (Init envOk [] initialState).1).1.nextId = 1 :=
  ⟨rfl, rfl, rfl, rfl, rfl⟩

/-- C4 amended: Init may be called more than once, but a subsequent
call does not rebuild the anonymous instance: NewLogger finds the
registered anonymous entry and returns it, so Init succeeds with no
construction, the registry is unchanged, the subsequent options are
ignored, and the process default is re-pointed at the same
already-registered instance. -/
theorem init_subsequent_reuses_existing (env : Env) (opts : List Opt) (s : RegState)
    (l : Logger) (h : mapLookup s.loggerMap "" = some l) :
    Init env opts s = ({ s with globalLogger := some l }, [], true) := by
  have hN := NewLogger_found env "" [WithFullConfig (applyOpts opts DefaultConfig)] s l h
  simp only [Init]
  rw [hN]

/-- Witness for C4 (amended) at a registry holding a registered
anonymous instance. -/
theorem init_subsequent_reuses_existing_witness :
    Init envOk [WithLevel "debug"] regAnon =
      ({ regAnon with globalLogger := some anonLogger }, [], true) :=
  init_subsequent_reuses_existing envOk [WithLevel "debug"] regAnon anonLogger rfl

/-- C5 counterexample: at the concrete name "svc", absent from the
empty registry, GetLogger emits a construction event and registers a
new instance — it is not a pure read and does not report not-found. -/
theorem getLogger_constructs_counterexample :
    mapLookup initialState.loggerMap "svc" = none ∧
    (GetLogger envOk "svc" initialState).2.1 = ["svc"] ∧
    mapLookup ((GetLogger envOk "svc" initialState).1).loggerMap "svc" =
      some { id := 0, name := "svc", config := DefaultConfig } :=
  ⟨rfl, rfl, rfl⟩

/-- C5 amended: GetLogger is a pure read only for registered names —
there it returns the registered instance and changes nothing; for an
absent name it falls through to NewLogger with the global logger's
config as options (when the global logger is set), and on success it
has constructed and registered a fresh instance for the name. -/
theorem getLogger_read_or_create (env : Env) (name : String) (s : RegState) :
    (∀ l, mapLookup s.loggerMap name = some l → GetLogger env name s = (s, [], some l)) ∧
    (mapLookup s.loggerMap name = none →
      GetLogger env name s = NewLogger env name (globalOpts s) s ∧
      ∀ l, (GetLogger env name s).2.2 = some l →
        (GetLogger env name s).2.1 = [name] ∧
        mapLookup ((GetLogger env name s).1).loggerMap name = some l) := by
  refine ⟨fun l h => GetLogger_found env name s l h, fun habs => ?_⟩
  have hdel := GetLogger_absent env name s habs
  refine ⟨hdel, fun l hres => ?_⟩
  rw [hdel] at hres ⊢
  have heq := NewLogger_success_of_absent env name (globalOpts s) s l habs hres
  rw [heq] at hres ⊢
  refine ⟨rfl, ?_⟩
  rw [registerNew_lookup_self]
  simpa [registerNew] using hres

/-- Witness for C5 (amended): for the absent name "svc" GetLogger
coincides with the NewLogger fall-through. -/
theorem getLogger_read_or_create_witness :
    GetLogger envOk "svc" initialState =
      NewLogger envOk "svc" (globalOpts initialState) initialState :=
  ((getLogger_read_or_create envOk "svc" initialState).2 rfl).1

/-- C6: when the global logger exists and the requested name is new,
the constructed instance's configuration is a snapshot copy of the
global configuration: the inherited full config overrides every
built-in default (GetLogger passes no further explicit options), and no
later sequence of registry operations alters the stored instance or its
configuration (copy, not shared state). -/
theorem getLogger_inherits_global_config (env : Env) (s : RegState) (name : String)
    (g l : Logger) (hg : s.globalLogger = some g)
    (habs : mapLookup s.loggerMap name = none)
    (hres : (GetLogger env name s).2.2 = some l) :
    l.config = g.config ∧
    l.config = applyOpts [WithFullConfig g.config] DefaultConfig ∧
    ∀ ops : List Op,
      mapLookup ((runOps env ops (GetLogger env name s).1).1).loggerMap name = some l := by
  have hdel := GetLogger_absent env name s habs
  rw [hdel] at hres
  have heq := NewLogger_success_of_absent env name (globalOpts s) s l habs hres
  rw [heq] at hres
  have hl : l = Logger.mk s.nextId name (applyOpts (globalOpts s) DefaultConfig) := by
    simpa [registerNew] using hres.symm
  have hcfg : l.config = g.config := by
    rw [hl]
    simp [globalOpts, hg, applyOpts, WithFullConfig]
  refine ⟨hcfg, by rw [hcfg]; rfl, fun ops => ?_⟩
  have hreg : mapLookup ((GetLogger env name s).1).loggerMap name = some l := by
    rw [hdel, heq, registerNew_lookup_self, hl]
  exact (runOps_preserves env ops (GetLogger env name s).1 name l hreg).1

/-- Witness for C6: with a global logger carrying a debug-level config,
GetLogger for the new name "svc" builds an instance whose config equals
the global config, and the instance survives a later Init unchanged. -/
theorem getLogger_inherits_global_config_witness :
    Logger.config { id := 1, name := "svc", config := gConfig } = gLogger.config ∧
    mapLookup
        ((runOps envOk [Op.init []] (GetLogger envOk "svc" regGlobal).1).1).loggerMap "svc"
      = some { id := 1, name := "svc", config := gConfig } := by
  have h := getLogger_inherits_global_config envOk regGlobal "svc" gLogger
    { id := 1, name := "svc", config := gConfig } rfl rfl rfl
  exact ⟨h.1, h.2.2 [Op.init []]⟩

/-- C7: file-path derivation: for a non-empty name the derived path is
the base path split at its file extension with "." and the name spliced
in between (so "logs/app.log" with name "user-service" derives
"logs/app.user-service.log"), and for the empty name the derived path
is the base path unmodified. -/
theorem derivePath_inserts_before_extension (base name : String) (h : name ≠ "") :
    (∃ stem ext : String,
      stem ++ ext = base ∧ ext = filepathExt base ∧
      deriveFilename base name = stem ++ "." ++ name ++ ext) ∧
    (∀ b : String, deriveFilename b "" = b) ∧
    deriveFilename "logs/app.log" "user-service" = "logs/app.user-service.log" := by
  refine ⟨?_, deriveFilename_empty_name, rfl⟩
  refine ⟨String.mk (base.data.take (base.data.length - (filepathExt base).data.length)),
    filepathExt base, ?_, rfl, deriveFilename_eq base name h⟩
  apply string_data_eq
  rw [string_append_data]
  exact filepathExt_split base

/-- Witness for C7 at the spec's own example. -/
theorem derivePath_inserts_before_extension_witness :
    deriveFilename "logs/app.log" "user-service" = "logs/app.user-service.log" :=
  (derivePath_inserts_before_extension "logs/app.log" "user-service" (by decide)).2.2

/-- C8: the level resolver is total and lenient: "debug", "info",
"warn", "error", "fatal" map to strictly increasing severities, every
other string resolves to the info severity without error, and the
internal copy of the resolver agrees. -/
theorem level_resolver_total_and_ordered :
    getZapLevel "debug" = DebugLevel ∧ getZapLevel "info" = InfoLevel ∧
    getZapLevel "warn" = WarnLevel ∧ getZapLevel "error" = ErrorLevel ∧
    getZapLevel "fatal" = FatalLevel ∧
    DebugLevel < InfoLevel ∧ InfoLevel < WarnLevel ∧
    WarnLevel < ErrorLevel ∧ ErrorLevel < FatalLevel ∧
    (∀ s : String, s ≠ "debug" → s ≠ "info" → s ≠ "warn" → s ≠ "error" → s ≠ "fatal" →
      getZapLevel s = InfoLevel) ∧
    (∀ s : String, Internal.GetZapLevel s = getZapLevel s) := by
  refine ⟨rfl, rfl, rfl, rfl, rfl, by decide, by decide, by decide, by decide,
    ?_, fun _ => rfl⟩
  intro s h1 h2 h3 h4 h5
  simp [getZapLevel, levelMap, h1, h2, h3, h4, h5]

/-- Witness for C8 at the unrecognized level name "verbose". -/
theorem level_resolver_total_and_ordered_witness :
    getZapLevel "verbose" = InfoLevel :=
  level_resolver_total_and_ordered.2.2.2.2.2.2.2.2.2.1 "verbose"
    (by decide) (by decide) (by decide) (by decide) (by decide)

/-- C9: encoder selection is total and lenient: "json" selects the
structured JSON formatter and every other format string (including
"console") selects the human-readable console formatter; no format
string fails. -/
theorem encoder_selection_total :
    getEncoder "json" = Encoder.json ∧
    ∀ format : String, format ≠ "json" → getEncoder format = Encoder.console := by
  refine ⟨rfl, fun format h => ?_⟩
  simp [getEncoder, h]

/-- Witness for C9 at the format string "console". -/
theorem encoder_selection_total_witness :
    getEncoder "console" = Encoder.console :=
  encoder_selection_total.2 "console" (by decide)

/-- C10: for a non-empty name and a base path whose final component
contains no dot, the extension is empty and the derived path is the
base path followed by "." and the name; derivation never fails on
extensionless base paths. -/
theorem derivePath_extensionless (base name : String) (hn : name ≠ "")
    (hdot : ('.' : Char) ∉ finalComponent base) :
    deriveFilename base name = base ++ "." ++ name := by
  have he := filepathExt_eq_empty base hdot
  rw [deriveFilename_eq base name hn, he, string_append_empty]
  have htake : base.data.take (base.data.length - ("" : String).data.length) = base.data := by
    simp
  rw [htake]

/-- Witness for C10 at the extensionless base path "logs/app". -/
theorem derivePath_extensionless_witness :
    deriveFilename "logs/app" "svc" = "logs/app" ++ "." ++ "svc" :=
  derivePath_extensionless "logs/app" "svc" (by decide) (by decide)

end AwesomeLog
